import Mathlib

/-!
Verification of the distributed sampling-and-assembly pipeline in
`generate.py` (REPA-E).  The script samples images across `world_size`
worker processes, writes each image to a file named by a global sample
index, and packs the first `num_fid_samples` images into one archive.

The embedding below follows the source:
  * `derivedSeed` models line 64: `seed = (args.global_seed + rank) * dist.get_world_size()//2`
    (Python `//` is floor division, hence `Int.fdiv`).
  * `globalBatchSize`, `totalSamples`, `samplesNeededThisGpu`, `iterations`
    model lines 162-173 (`math.ceil(num_fid_samples / global_batch_size) *
    global_batch_size` is exact ceiling division here, modelled on ℕ).
  * `sampleIndex` models line 212: `index = i * dist.get_world_size() + rank + total`.
  * `create_npz_from_sample_folder` models lines 35-49: the folder is a map
    from index to an optional image; a missing file raises, so the result is
    `Except`, carrying the first missing index on failure.
  * `mainRun`/`sampleLoop` model the observable control flow of `main`
    (lines 142-222) per rank, as a list of events plus an optional fatal
    failure: the `cfg_scale` assert, the rank-0 existence check on
    `sample_folder_dir + ".npz"`, the broadcast of the skip flag, the
    early return with `destroy_process_group`, the barrier, the two
    divisibility asserts, the per-iteration Heun/mode checks, the image
    writes, the post-loop barrier, the rank-0 archive build over
    `num_fid_samples`, and the final teardown.
-/

namespace GenerateSpec

/-- Line 64: `seed = (args.global_seed + rank) * dist.get_world_size()//2`.
Python `*` and `//` share precedence and associate left, and `//` is floor
division on integers. -/
def derivedSeed (global_seed rank world_size : ℤ) : ℤ :=
  Int.fdiv ((global_seed + rank) * world_size) 2

/-- Line 163: `global_batch_size = n * dist.get_world_size()`. -/
def globalBatchSize (n world_size : ℕ) : ℕ := n * world_size

/-- Exact ceiling division on ℕ, the value of `math.ceil(a / b)` for `b ≥ 1`. -/
def ceilDiv (a b : ℕ) : ℕ := (a + b - 1) / b

/-- Line 165: `total_samples = int(math.ceil(args.num_fid_samples / global_batch_size) * global_batch_size)`. -/
def totalSamples (requested n world_size : ℕ) : ℕ :=
  ceilDiv requested (globalBatchSize n world_size) * globalBatchSize n world_size

/-- Line 171: `samples_needed_this_gpu = int(total_samples // dist.get_world_size())`. -/
def samplesNeededThisGpu (requested n world_size : ℕ) : ℕ :=
  totalSamples requested n world_size / world_size

/-- Line 173: `iterations = int(samples_needed_this_gpu // n)`. -/
def iterations (requested n world_size : ℕ) : ℕ :=
  samplesNeededThisGpu requested n world_size / n

/-- Line 212: `index = i * dist.get_world_size() + rank + total`. -/
def sampleIndex (world_size rank total i : ℕ) : ℕ :=
  i * world_size + rank + total

/-- Lines 35-49, `create_npz_from_sample_folder`: open the files in index
order; `Image.open` on a missing path raises, which aborts the build with no
archive written.  The recursion reads the given index list left to right and
stops at the first missing file, reporting its index. -/
def readSampleFiles {α : Type} (fs : ℕ → Option α) : List ℕ → Except ℕ (List α)
  | [] => Except.ok []
  | i :: rest =>
    match fs i with
    | none => Except.error i
    | some img =>
      match readSampleFiles fs rest with
      | Except.error j => Except.error j
      | Except.ok l => Except.ok (img :: l)

/-- Line 40: `for i in tqdm(range(num), ...)` — the files read are exactly
indices `0 .. num-1`, in increasing order. -/
def create_npz_from_sample_folder {α : Type} (fs : ℕ → Option α) (num : ℕ) :
    Except ℕ (List α) :=
  readSampleFiles fs (List.range num)

/-- The command-line arguments of `main` that the modelled control flow
reads (lines 142-222). -/
structure Args where
  global_seed : ℤ
  cfg_scale : ℚ
  mode : String
  heun : Bool
  pproc_batch_size : ℕ
  num_fid_samples : ℕ
deriving DecidableEq

/-- The state of the output locations when the run starts: whether
`sample_folder_dir + ".npz"` exists and whether `sample_folder_dir` itself
exists.  Line 151 uses `os.makedirs(..., exist_ok=True)`, so the code never
branches on `dirExists`. -/
structure FileSystem where
  npzExists : Bool
  dirExists : Bool
deriving DecidableEq

/-- Observable events of one worker process in `main`. -/
inductive Event : Type
  | makeDir : Event
  | broadcastSkip : Bool → Event
  | barrier : Event
  | drawNoise : Event
  | samplerCall : Event
  | writeImage : ℕ → Event
  | buildArchive : ℕ → Event
  | destroyGroup : Event
deriving DecidableEq

/-- The fatal aborts `main` can raise in the modelled region. -/
inductive Failure : Type
  | cfgScaleTooSmall : Failure
  | totalNotDivisible : Failure
  | perGpuNotDivisible : Failure
  | heunRequiresOde : Failure
  | unknownMode : Failure
deriving DecidableEq

/-- Lines 177-214, the sampling loop of one worker: each iteration draws
noise and labels, asserts `not args.heun or args.mode == "ode"`, dispatches
on `args.mode` (`"sde"`, `"ode"`, else `NotImplementedError`), writes the
`n` images of the batch at indices `i * world_size + rank + total`, and
advances `total` by `n * world_size`. -/
def sampleLoop (args : Args) (rank world_size n : ℕ) :
    (iters : ℕ) → (total : ℕ) → List Event × Option Failure
  | 0, _ => ([], none)
  | iters + 1, total =>
    if args.heun = true ∧ args.mode ≠ "ode" then
      ([Event.drawNoise], some Failure.heunRequiresOde)
    else if args.mode = "sde" ∨ args.mode = "ode" then
      let writes := (List.range n).map
        (fun i => Event.writeImage (sampleIndex world_size rank total i))
      let rest := sampleLoop args rank world_size n iters (total + n * world_size)
      (Event.drawNoise :: Event.samplerCall :: writes ++ rest.1, rest.2)
    else
      ([Event.drawNoise], some Failure.unknownMode)

/-- Lines 142-222 of `main`, per rank, from the `cfg_scale` assert on
(model loading earlier in `main` is opaque here).  Rank 0 checks for
`sample_folder_dir + ".npz"`, otherwise creates the folder; the skip flag is
broadcast; a true flag destroys the group and returns; otherwise a barrier,
the batch-plan divisibility asserts, the sampling loop, the post-loop
barrier, the rank-0 archive build over `args.num_fid_samples`, a final
barrier, and teardown. -/
def mainRun (args : Args) (fs : FileSystem) (rank world_size : ℕ) :
    List Event × Option Failure :=
  if args.cfg_scale < 1 then ([], some Failure.cfgScaleTooSmall)
  else
    let setup : List Event :=
      if rank = 0 ∧ fs.npzExists = false then [Event.makeDir] else []
    let skip : Bool := fs.npzExists
    let pre : List Event := setup ++ [Event.broadcastSkip skip]
    if skip then (pre ++ [Event.destroyGroup], none)
    else
      let pre2 : List Event := pre ++ [Event.barrier]
      let n := args.pproc_batch_size
      let T := totalSamples args.num_fid_samples n world_size
      if T % world_size ≠ 0 then (pre2, some Failure.totalNotDivisible)
      else
        let perGpu := T / world_size
        if perGpu % n ≠ 0 then (pre2, some Failure.perGpuNotDivisible)
        else
          let loop := sampleLoop args rank world_size n (perGpu / n) 0
          match loop.2 with
          | some e => (pre2 ++ loop.1, some e)
          | none =>
            (pre2 ++ loop.1 ++ [Event.barrier] ++
              (if rank = 0 then [Event.buildArchive args.num_fid_samples] else []) ++
              [Event.barrier, Event.destroyGroup], none)

/-- The sample indices recorded in a list of events, in write order. -/
def writtenIndices (evts : List Event) : List ℕ :=
  evts.filterMap (fun e =>
    match e with
    | Event.writeImage i => some i
    | _ => none)

/-- The indices one rank writes, as the loop produces them: for each of the
`iters` iterations a block of `n` indices `i * world_size + rank + total`,
with `total` advancing by `n * world_size` per iteration. -/
def plannedIndices (rank world_size n : ℕ) : (iters total : ℕ) → List ℕ
  | 0, _ => []
  | iters + 1, total =>
    (List.range n).map (fun i => sampleIndex world_size rank total i) ++
    plannedIndices rank world_size n iters (total + n * world_size)

/-! ### Arithmetic facts about the batch plan -/

lemma ceilDiv_mul_ge {a b : ℕ} (hb : 0 < b) : a ≤ ceilDiv a b * b := by
  rcases Nat.eq_zero_or_pos a with ha | ha
  · simp [ha]
  · unfold ceilDiv
    have h1 : a + b - 1 = (a - 1) + b := by omega
    rw [h1, Nat.add_div_right _ hb, Nat.succ_mul]
    have h2 := Nat.div_add_mod (a - 1) b
    have h3 := Nat.mod_lt (a - 1) hb
    rw [Nat.mul_comm b ((a - 1) / b)] at h2
    omega

lemma ceilDiv_le {a b k : ℕ} (hb : 0 < b) (h : a ≤ k * b) : ceilDiv a b ≤ k := by
  unfold ceilDiv
  rw [Nat.div_le_iff_le_mul_add_pred hb, Nat.mul_comm b k]
  omega

lemma ceilDiv_pos {a b : ℕ} (ha : 0 < a) (hb : 0 < b) : 0 < ceilDiv a b :=
  Nat.div_pos (by omega) hb

lemma totalSamples_def (requested n W : ℕ) :
    totalSamples requested n W = ceilDiv requested (n * W) * (n * W) := rfl

lemma samplesNeeded_eq {W : ℕ} (requested n : ℕ) (hW : 0 < W) :
    samplesNeededThisGpu requested n W = ceilDiv requested (n * W) * n := by
  show ceilDiv requested (n * W) * (n * W) / W = _
  rw [← Nat.mul_assoc]
  exact Nat.mul_div_cancel _ hW

lemma iterations_eq {n W : ℕ} (requested : ℕ) (hn : 0 < n) (hW : 0 < W) :
    iterations requested n W = ceilDiv requested (n * W) := by
  unfold iterations
  rw [samplesNeeded_eq requested n hW]
  exact Nat.mul_div_cancel _ hn

lemma totalSamples_mod_world (requested n W : ℕ) :
    totalSamples requested n W % W = 0 := by
  show ceilDiv requested (n * W) * (n * W) % W = 0
  rw [← Nat.mul_assoc]
  exact Nat.mul_mod_left _ _

lemma perGpu_mod_batch {W : ℕ} (requested n : ℕ) (hW : 0 < W) :
    samplesNeededThisGpu requested n W % n = 0 := by
  rw [samplesNeeded_eq requested n hW]
  exact Nat.mul_mod_left _ _

lemma totalSamples_eq_iterations_mul {n W : ℕ} (requested : ℕ) (hn : 0 < n) (hW : 0 < W) :
    totalSamples requested n W = iterations requested n W * (n * W) := by
  rw [iterations_eq requested hn hW]; rfl

/-- The sampling loop can only abort with the Heun assert or the
`NotImplementedError` on an unknown mode, never with a different failure. -/
lemma sampleLoop_failure (args : Args) (rank W n : ℕ) :
    ∀ iters total, (sampleLoop args rank W n iters total).2 = none ∨
      (sampleLoop args rank W n iters total).2 = some Failure.heunRequiresOde ∨
      (sampleLoop args rank W n iters total).2 = some Failure.unknownMode := by
  intro iters
  induction iters with
  | zero => intro total; exact Or.inl rfl
  | succ k ih =>
    intro total
    simp only [sampleLoop]
    split_ifs with h1 h2
    · exact Or.inr (Or.inl rfl)
    · exact ih (total + n * W)
    · exact Or.inr (Or.inr rfl)

/-- The two divisibility asserts after batch planning never fire in `main`. -/
lemma mainRun_no_div_failure (args : Args) (fs : FileSystem) (rank W : ℕ)
    (hW : 1 ≤ W) :
    (mainRun args fs rank W).2 ≠ some Failure.totalNotDivisible ∧
    (mainRun args fs rank W).2 ≠ some Failure.perGpuNotDivisible := by
  have hT := totalSamples_mod_world args.num_fid_samples args.pproc_batch_size W
  have hP := perGpu_mod_batch args.num_fid_samples args.pproc_batch_size hW
  unfold samplesNeededThisGpu at hP
  by_cases h1 : args.cfg_scale < 1
  · simp [mainRun, h1]
  by_cases hfs : fs.npzExists = true
  · simp [mainRun, h1, hfs]
  rcases sampleLoop_failure args rank W args.pproc_batch_size
      (totalSamples args.num_fid_samples args.pproc_batch_size W / W /
        args.pproc_batch_size) 0 with h | h | h <;>
    simp [mainRun, h1, hfs, hT, hP, h]

/-- Claim C2: `totalSamples` is the smallest multiple of `n * world_size`
at least the requested count, `samplesNeededThisGpu` is `totalSamples /
world_size` and an exact multiple of `n`, `iterations` is
`samplesNeededThisGpu / n`, and the example plan for `requested = 100`,
`n = 10`, `world_size = 4` is `120 / 30 / 3`. -/
theorem c2_batch_plan_smallest_multiple (requested n W m : ℕ)
    (_hreq : 1 ≤ requested) (hn : 1 ≤ n) (hW : 1 ≤ W)
    (hm : requested ≤ m) (hmod : m % (n * W) = 0) :
    requested ≤ totalSamples requested n W ∧
    totalSamples requested n W % (n * W) = 0 ∧
    totalSamples requested n W ≤ m ∧
    samplesNeededThisGpu requested n W = totalSamples requested n W / W ∧
    samplesNeededThisGpu requested n W % n = 0 ∧
    iterations requested n W = samplesNeededThisGpu requested n W / n ∧
    totalSamples 100 10 4 = 120 ∧ samplesNeededThisGpu 100 10 4 = 30 ∧
    iterations 100 10 4 = 3 := by
  have hnW : 0 < n * W := Nat.mul_pos hn hW
  refine ⟨?_, ?_, ?_, rfl, perGpu_mod_batch _ _ hW, rfl, by decide, by decide, by decide⟩
  · rw [totalSamples_def]
    exact ceilDiv_mul_ge hnW
  · rw [totalSamples_def]
    exact Nat.mul_mod_left _ _
  · obtain ⟨k, hk⟩ := Nat.dvd_of_mod_eq_zero hmod
    subst hk
    rw [totalSamples_def]
    have hle : ceilDiv requested (n * W) ≤ k := by
      refine ceilDiv_le hnW ?_
      rw [Nat.mul_comm]
      exact hm
    calc ceilDiv requested (n * W) * (n * W) ≤ k * (n * W) :=
          Nat.mul_le_mul_right _ hle
      _ = n * W * k := Nat.mul_comm _ _

/-- Witness for C2 at `requested = 100`, `n = 10`, `world_size = 4`,
`m = 120`. -/
theorem c2_batch_plan_smallest_multiple_witness :
    (1 ≤ 100 ∧ 1 ≤ 10 ∧ 1 ≤ 4 ∧ 100 ≤ 120 ∧ 120 % (10 * 4) = 0) ∧
    (100 ≤ totalSamples 100 10 4 ∧
     totalSamples 100 10 4 % (10 * 4) = 0 ∧
     totalSamples 100 10 4 ≤ 120 ∧
     samplesNeededThisGpu 100 10 4 = totalSamples 100 10 4 / 4 ∧
     samplesNeededThisGpu 100 10 4 % 10 = 0 ∧
     iterations 100 10 4 = samplesNeededThisGpu 100 10 4 / 10 ∧
     totalSamples 100 10 4 = 120 ∧ samplesNeededThisGpu 100 10 4 = 30 ∧
     iterations 100 10 4 = 3) :=
  ⟨by decide,
   c2_batch_plan_smallest_multiple 100 10 4 120 (by decide) (by decide)
     (by decide) (by decide) (by decide)⟩

/-- Claim C9: with exact integer arithmetic the two divisibility asserts
after batch planning are unreachable: `totalSamples` is always divisible by
`world_size`, the per-GPU share is always divisible by `n`, and `mainRun`
never aborts with either divisibility failure. -/
theorem c9_divisibility_asserts_unreachable (requested n W : ℕ)
    (args : Args) (fs : FileSystem) (rank : ℕ)
    (_hn : 1 ≤ n) (hW : 1 ≤ W) :
    totalSamples requested n W % W = 0 ∧
    (totalSamples requested n W / W) % n = 0 ∧
    (mainRun args fs rank W).2 ≠ some Failure.totalNotDivisible ∧
    (mainRun args fs rank W).2 ≠ some Failure.perGpuNotDivisible := by
  refine ⟨totalSamples_mod_world _ _ _, ?_, mainRun_no_div_failure args fs rank W hW⟩
  have := perGpu_mod_batch requested n hW
  unfold samplesNeededThisGpu at this
  exact this

/-- Witness for C9 at `requested = 100`, `n = 10`, `world_size = 4`,
with a concrete run configuration. -/
theorem c9_divisibility_asserts_unreachable_witness :
    (1 ≤ 10 ∧ 1 ≤ 4) ∧
    (totalSamples 100 10 4 % 4 = 0 ∧
     (totalSamples 100 10 4 / 4) % 10 = 0 ∧
     (mainRun ⟨0, mkRat 3 2, "ode", false, 10, 100⟩ ⟨false, false⟩ 0 4).2 ≠
       some Failure.totalNotDivisible ∧
     (mainRun ⟨0, mkRat 3 2, "ode", false, 10, 100⟩ ⟨false, false⟩ 0 4).2 ≠
       some Failure.perGpuNotDivisible) :=
  ⟨by decide,
   c9_divisibility_asserts_unreachable 100 10 4 ⟨0, mkRat 3 2, "ode", false, 10, 100⟩
     ⟨false, false⟩ 0 (by decide) (by decide)⟩

/-- Claim C6: the per-rank seed of line 64 is a deterministic function of
exactly `(global_seed, rank, world_size)`: recomputing it on equal inputs
yields the same value. -/
theorem c6_seed_deterministic (g₁ g₂ r₁ r₂ w₁ w₂ : ℤ)
    (hg : g₁ = g₂) (hr : r₁ = r₂) (hw : w₁ = w₂) :
    derivedSeed g₁ r₁ w₁ = derivedSeed g₂ r₂ w₂ := by
  rw [hg, hr, hw]

/-- Witness for C6 at `(global_seed, rank, world_size) = (0, 1, 4)`. -/
theorem c6_seed_deterministic_witness :
    ((0 : ℤ) = 0 ∧ (1 : ℤ) = 1 ∧ (4 : ℤ) = 4) ∧
    derivedSeed 0 1 4 = derivedSeed 0 1 4 :=
  ⟨⟨rfl, rfl, rfl⟩, c6_seed_deterministic 0 0 1 1 4 4 rfl rfl rfl⟩

/-- Claim C10: the seed derivation `(global_seed + rank) * world_size // 2`
is not injective in the global seed: with `world_size = 1` and rank 0, the
distinct global seeds `2k` and `2k+1` both derive seed `k`. -/
theorem c10_seed_collision (k : ℤ) :
    derivedSeed (2 * k) 0 1 = k ∧ derivedSeed (2 * k + 1) 0 1 = k ∧
    2 * k ≠ 2 * k + 1 ∧
    ¬ Function.Injective (fun g : ℤ => derivedSeed g 0 1) := by
  unfold derivedSeed
  refine ⟨?_, ?_, by omega, ?_⟩
  · rw [Int.fdiv_eq_ediv] <;> omega
  · rw [Int.fdiv_eq_ediv] <;> omega
  · intro hinj
    have h01 : (0 : ℤ) = 1 := hinj (by decide)
    exact absurd h01 (by decide)

/-- Claim C7: a run with `cfg_scale < 1.0` aborts at the assert on line 142
before anything else in the modelled region happens: the trace is empty, so
in particular no sampler call and no image write occur. -/
theorem c7_cfg_scale_rejected (args : Args) (fs : FileSystem) (rank W i : ℕ)
    (hcfg : args.cfg_scale < 1) :
    mainRun args fs rank W = ([], some Failure.cfgScaleTooSmall) ∧
    Event.samplerCall ∉ (mainRun args fs rank W).1 ∧
    Event.writeImage i ∉ (mainRun args fs rank W).1 := by
  have h : mainRun args fs rank W = ([], some Failure.cfgScaleTooSmall) := by
    simp [mainRun, hcfg]
  refine ⟨h, ?_, ?_⟩ <;> simp [h]

/-- Witness for C7 at `cfg_scale = 0.5`. -/
theorem c7_cfg_scale_rejected_witness :
    ((⟨0, mkRat 1 2, "ode", false, 1, 1⟩ : Args).cfg_scale < 1) ∧
    (mainRun ⟨0, mkRat 1 2, "ode", false, 1, 1⟩ ⟨false, false⟩ 0 1 =
       ([], some Failure.cfgScaleTooSmall) ∧
     Event.samplerCall ∉ (mainRun ⟨0, mkRat 1 2, "ode", false, 1, 1⟩ ⟨false, false⟩ 0 1).1 ∧
     Event.writeImage 0 ∉ (mainRun ⟨0, mkRat 1 2, "ode", false, 1, 1⟩ ⟨false, false⟩ 0 1).1) :=
  ⟨by decide,
   c7_cfg_scale_rejected ⟨0, mkRat 1 2, "ode", false, 1, 1⟩ ⟨false, false⟩ 0 1 0 (by decide)⟩

/-- Claim C4 counterexample: with `cfg_scale = 0.5` and the `.npz` archive
already present, the run dies at the `cfg_scale` assert on line 142, which
precedes the existence check on line 147: the skip flag is never broadcast
and `destroy_process_group` never runs, contradicting the claim that every
worker with the archive present exits cleanly after the broadcast. -/
theorem c4_counterexample :
    ((⟨true, false⟩ : FileSystem).npzExists = true) ∧
    (mainRun ⟨0, mkRat 1 2, "ode", false, 1, 1⟩ ⟨true, false⟩ 0 1).2 =
      some Failure.cfgScaleTooSmall ∧
    Event.destroyGroup ∉ (mainRun ⟨0, mkRat 1 2, "ode", false, 1, 1⟩ ⟨true, false⟩ 0 1).1 ∧
    Event.broadcastSkip true ∉ (mainRun ⟨0, mkRat 1 2, "ode", false, 1, 1⟩ ⟨true, false⟩ 0 1).1 := by
  decide

/-- Claim C4 (amended with `cfg_scale ≥ 1.0`, which the assert on line 142
checks before the skip logic runs): when the `.npz` archive already exists,
every worker broadcasts the skip flag, executes no barrier and writes no
image, and tears the group down on the early-return path. -/
theorem c4_npz_exists_early_return (args : Args) (fs : FileSystem) (rank W i : ℕ)
    (hcfg : ¬ args.cfg_scale < 1) (hnpz : fs.npzExists = true) :
    mainRun args fs rank W = ([Event.broadcastSkip true, Event.destroyGroup], none) ∧
    Event.barrier ∉ (mainRun args fs rank W).1 ∧
    Event.writeImage i ∉ (mainRun args fs rank W).1 ∧
    Event.destroyGroup ∈ (mainRun args fs rank W).1 := by
  have h : mainRun args fs rank W =
      ([Event.broadcastSkip true, Event.destroyGroup], none) := by
    simp [mainRun, hcfg, hnpz]
  refine ⟨h, ?_, ?_, ?_⟩ <;> simp [h]

/-- Witness for amended C4 with the archive present, `cfg_scale = 1.5`. -/
theorem c4_npz_exists_early_return_witness :
    (¬ (⟨0, mkRat 3 2, "ode", false, 1, 1⟩ : Args).cfg_scale < 1 ∧
     (⟨true, false⟩ : FileSystem).npzExists = true) ∧
    (mainRun ⟨0, mkRat 3 2, "ode", false, 1, 1⟩ ⟨true, false⟩ 2 4 =
       ([Event.broadcastSkip true, Event.destroyGroup], none) ∧
     Event.barrier ∉ (mainRun ⟨0, mkRat 3 2, "ode", false, 1, 1⟩ ⟨true, false⟩ 2 4).1 ∧
     Event.writeImage 0 ∉ (mainRun ⟨0, mkRat 3 2, "ode", false, 1, 1⟩ ⟨true, false⟩ 2 4).1 ∧
     Event.destroyGroup ∈ (mainRun ⟨0, mkRat 3 2, "ode", false, 1, 1⟩ ⟨true, false⟩ 2 4).1) :=
  ⟨by decide,
   c4_npz_exists_early_return ⟨0, mkRat 3 2, "ode", false, 1, 1⟩ ⟨true, false⟩ 2 4 0
     (by decide) (by decide)⟩

/-- Claim C5 counterexample: the code checks `sample_folder_dir + ".npz"`
(line 147), not the directory.  With the directory already existing but no
archive, the run is not skipped: it samples and writes image 0. -/
theorem c5_counterexample :
    ((⟨false, true⟩ : FileSystem).dirExists = true) ∧
    Event.samplerCall ∈ (mainRun ⟨0, mkRat 3 2, "ode", false, 1, 1⟩ ⟨false, true⟩ 0 1).1 ∧
    Event.writeImage 0 ∈ (mainRun ⟨0, mkRat 3 2, "ode", false, 1, 1⟩ ⟨false, true⟩ 0 1).1 ∧
    (mainRun ⟨0, mkRat 3 2, "ode", false, 1, 1⟩ ⟨false, true⟩ 0 1).2 = none := by
  decide

/-- Claim C5 (amended: the skip trigger is the archive file
`sample_folder_dir + ".npz"`, not the output directory, whose existence is
tolerated by `os.makedirs(..., exist_ok=True)` and never branched on): when
the archive exists every rank sees the broadcast flag and exits without
sampling, and the directory flag has no effect on any rank's behaviour. -/
theorem c5_skip_governed_by_npz (args : Args) (b d₁ d₂ : Bool) (rank W i : ℕ)
    (hcfg : ¬ args.cfg_scale < 1) :
    mainRun args ⟨true, d₁⟩ rank W =
      ([Event.broadcastSkip true, Event.destroyGroup], none) ∧
    Event.samplerCall ∉ (mainRun args ⟨true, d₁⟩ rank W).1 ∧
    Event.writeImage i ∉ (mainRun args ⟨true, d₁⟩ rank W).1 ∧
    mainRun args ⟨b, d₁⟩ rank W = mainRun args ⟨b, d₂⟩ rank W := by
  have h : mainRun args ⟨true, d₁⟩ rank W =
      ([Event.broadcastSkip true, Event.destroyGroup], none) := by
    simp [mainRun, hcfg]
  exact ⟨h, by simp [h], by simp [h], rfl⟩

/-- Witness for amended C5 with the archive present. -/
theorem c5_skip_governed_by_npz_witness :
    (¬ (⟨0, mkRat 3 2, "ode", false, 1, 1⟩ : Args).cfg_scale < 1) ∧
    (mainRun ⟨0, mkRat 3 2, "ode", false, 1, 1⟩ ⟨true, true⟩ 1 2 =
       ([Event.broadcastSkip true, Event.destroyGroup], none) ∧
     Event.samplerCall ∉ (mainRun ⟨0, mkRat 3 2, "ode", false, 1, 1⟩ ⟨true, true⟩ 1 2).1 ∧
     Event.writeImage 3 ∉ (mainRun ⟨0, mkRat 3 2, "ode", false, 1, 1⟩ ⟨true, true⟩ 1 2).1 ∧
     mainRun ⟨0, mkRat 3 2, "ode", false, 1, 1⟩ ⟨false, true⟩ 1 2 =
       mainRun ⟨0, mkRat 3 2, "ode", false, 1, 1⟩ ⟨false, false⟩ 1 2) :=
  ⟨by decide,
   c5_skip_governed_by_npz ⟨0, mkRat 3 2, "ode", false, 1, 1⟩ false true false 1 2 3
     (by decide)⟩

/-- Claim C8 counterexample: with the archive already present, a run invoked
with mode `sde` and the Heun toggle enabled is skipped and ends cleanly
after the broadcast — it is not rejected fatally (the assert on line 182
sits inside the sampling loop, which is never entered). -/
theorem c8_counterexample :
    ((⟨0, mkRat 3 2, "sde", true, 1, 1⟩ : Args).mode = "sde") ∧
    ((⟨0, mkRat 3 2, "sde", true, 1, 1⟩ : Args).heun = true) ∧
    (mainRun ⟨0, mkRat 3 2, "sde", true, 1, 1⟩ ⟨true, false⟩ 0 1).2 = none ∧
    Event.destroyGroup ∈
      (mainRun ⟨0, mkRat 3 2, "sde", true, 1, 1⟩ ⟨true, false⟩ 0 1).1 := by
  decide

/-- Claim C8 (amended: restricted to runs that reach the sampling loop with
at least one planned iteration, i.e. archive absent, `cfg_scale ≥ 1.0`,
requested count, batch size and world size all ≥ 1): with mode `sde` and
the Heun toggle enabled, the assert on line 182 aborts the run in its first
iteration, before any sampler invocation and before any image is written. -/
theorem c8_heun_sde_rejected (args : Args) (fs : FileSystem) (rank W i : ℕ)
    (hcfg : ¬ args.cfg_scale < 1) (hnpz : fs.npzExists = false)
    (hmode : args.mode = "sde") (hheun : args.heun = true)
    (hreq : 1 ≤ args.num_fid_samples) (hn : 1 ≤ args.pproc_batch_size)
    (hW : 1 ≤ W) :
    (mainRun args fs rank W).2 = some Failure.heunRequiresOde ∧
    Event.samplerCall ∉ (mainRun args fs rank W).1 ∧
    Event.writeImage i ∉ (mainRun args fs rank W).1 := by
  have hT := totalSamples_mod_world args.num_fid_samples args.pproc_batch_size W
  have hP := perGpu_mod_batch args.num_fid_samples args.pproc_batch_size hW
  unfold samplesNeededThisGpu at hP
  have hpos : 0 < totalSamples args.num_fid_samples args.pproc_batch_size W / W /
      args.pproc_batch_size := by
    have h2 : iterations args.num_fid_samples args.pproc_batch_size W =
        totalSamples args.num_fid_samples args.pproc_batch_size W / W /
          args.pproc_batch_size := rfl
    rw [← h2, iterations_eq _ hn hW]
    exact ceilDiv_pos hreq (Nat.mul_pos hn hW)
  rcases Nat.exists_eq_succ_of_ne_zero (Nat.pos_iff_ne_zero.mp hpos) with ⟨k, hk⟩
  have hloop : sampleLoop args rank W args.pproc_batch_size (k + 1) 0 =
      ([Event.drawNoise], some Failure.heunRequiresOde) := by
    simp [sampleLoop, hheun, hmode]
  by_cases hr : rank = 0
  · subst hr
    simp [mainRun, hcfg, hnpz, hT, hP, hk, hloop]
  · simp [mainRun, hcfg, hnpz, hT, hP, hk, hloop, hr]

/-- Witness for amended C8: `mode = "sde"`, `heun = true`, archive absent,
`cfg_scale = 1.5`, one sample, batch size 1, world size 1, rank 0. -/
theorem c8_heun_sde_rejected_witness :
    (¬ (⟨0, mkRat 3 2, "sde", true, 1, 1⟩ : Args).cfg_scale < 1 ∧
     (⟨false, false⟩ : FileSystem).npzExists = false ∧
     (⟨0, mkRat 3 2, "sde", true, 1, 1⟩ : Args).mode = "sde" ∧
     (⟨0, mkRat 3 2, "sde", true, 1, 1⟩ : Args).heun = true ∧
     1 ≤ (⟨0, mkRat 3 2, "sde", true, 1, 1⟩ : Args).num_fid_samples ∧
     1 ≤ (⟨0, mkRat 3 2, "sde", true, 1, 1⟩ : Args).pproc_batch_size ∧
     1 ≤ 1) ∧
    ((mainRun ⟨0, mkRat 3 2, "sde", true, 1, 1⟩ ⟨false, false⟩ 0 1).2 =
       some Failure.heunRequiresOde ∧
     Event.samplerCall ∉ (mainRun ⟨0, mkRat 3 2, "sde", true, 1, 1⟩ ⟨false, false⟩ 0 1).1 ∧
     Event.writeImage 0 ∉ (mainRun ⟨0, mkRat 3 2, "sde", true, 1, 1⟩ ⟨false, false⟩ 0 1).1) :=
  ⟨by decide,
   c8_heun_sde_rejected ⟨0, mkRat 3 2, "sde", true, 1, 1⟩ ⟨false, false⟩ 0 1 0
     (by decide) (by decide) (by decide) (by decide) (by decide) (by decide)
     (by decide)⟩

/-! ### The archive builder -/

/-- A successful read returns the files of the requested indices, in the
order of the index list. -/
lemma readSampleFiles_ok_map {α : Type} (fs : ℕ → Option α) :
    ∀ (idxs : List ℕ) (l : List α),
      readSampleFiles fs idxs = Except.ok l → idxs.map fs = l.map some := by
  intro idxs
  induction idxs with
  | nil =>
    intro l h
    simp only [readSampleFiles, Except.ok.injEq] at h
    subst h
    rfl
  | cons i rest ih =>
    intro l h
    cases hfi : fs i with
    | none => simp [readSampleFiles, hfi] at h
    | some a =>
      cases hrest : readSampleFiles fs rest with
      | error j => simp [readSampleFiles, hfi, hrest] at h
      | ok tl =>
        simp only [readSampleFiles, hfi, hrest, Except.ok.injEq] at h
        subst h
        simp [hfi, ih tl hrest]

/-- Reading stops at the first missing file and reports its index. -/
lemma readSampleFiles_error_at {α : Type} (fs : ℕ → Option α) :
    ∀ (pre : List ℕ) (i : ℕ) (suf : List ℕ),
      (∀ k ∈ pre, fs k ≠ none) → fs i = none →
      readSampleFiles fs (pre ++ i :: suf) = Except.error i := by
  intro pre
  induction pre with
  | nil =>
    intro i suf _ hnone
    simp [readSampleFiles, hnone]
  | cons p ps ih =>
    intro i suf h hnone
    obtain ⟨a, ha⟩ := Option.ne_none_iff_exists'.mp (h p (List.mem_cons_self p ps))
    have hrec := ih i suf (fun k hk => h k (List.mem_cons_of_mem p hk)) hnone
    simp [readSampleFiles, ha, hrec]

/-- `List.range num` split at an interior index `i`. -/
lemma range_split {num i : ℕ} (hi : i < num) :
    List.range num = List.range i ++ i :: List.range' (i + 1) (num - i - 1) := by
  have h1 := List.range'_append 0 i (num - i) 1
  have h3 : (0 : ℕ) + 1 * i = i := by omega
  rw [h3] at h1
  have h2 : num - i = (num - i - 1) + 1 := by omega
  rw [h2, List.range'_succ] at h1
  rw [List.range_eq_range', List.range_eq_range', h1]
  congr 1
  omega

/-- If every index below `i < num` is present and index `i` is missing, the
archive build fails with exactly index `i` (and hence emits nothing). -/
lemma create_npz_error_at {α : Type} (fs : ℕ → Option α) (num i : ℕ)
    (hi : i < num) (hnone : fs i = none) (hfirst : ∀ k, k < i → fs k ≠ none) :
    create_npz_from_sample_folder fs num = Except.error i := by
  rw [create_npz_from_sample_folder, range_split hi]
  exact readSampleFiles_error_at fs (List.range i) i _
    (fun k hk => hfirst k (List.mem_range.mp hk)) hnone

/-- A successful build read back exactly `num` images. -/
lemma create_npz_ok_length {α : Type} (fs : ℕ → Option α) (num : ℕ) (l : List α)
    (hok : create_npz_from_sample_folder fs num = Except.ok l) :
    l.length = num := by
  have h := readSampleFiles_ok_map fs (List.range num) l hok
  have h2 := congrArg List.length h
  simpa using h2.symm

/-- On success, position `j` of the archive is the file at index `j`: the
files are read in strictly increasing index order `0 .. num-1`. -/
lemma create_npz_ok_get {α : Type} (fs : ℕ → Option α) (num j : ℕ) (l : List α)
    (hok : create_npz_from_sample_folder fs num = Except.ok l) (hj : j < num) :
    l[j]? = fs j := by
  have h := readSampleFiles_ok_map fs (List.range num) l hok
  have h2 := congrArg (fun t => t[j]?) h
  simp only [List.getElem?_map, List.getElem?_range hj, Option.map_some'] at h2
  cases hlj : l[j]? with
  | none => rw [hlj] at h2; simp at h2
  | some v =>
    rw [hlj] at h2
    simp only [Option.map_some', Option.some.injEq] at h2
    exact h2.symm

/-- Every event the sampling loop emits is a noise draw, a sampler call or
an image write. -/
lemma sampleLoop_events_shape (args : Args) (rank W n : ℕ) :
    ∀ iters total e, e ∈ (sampleLoop args rank W n iters total).1 →
      e = Event.drawNoise ∨ e = Event.samplerCall ∨
      ∃ idx, e = Event.writeImage idx := by
  intro iters
  induction iters with
  | zero => intro total e he; simp [sampleLoop] at he
  | succ k ih =>
    intro total e he
    by_cases h1 : args.heun = true ∧ args.mode ≠ "ode"
    · simp [sampleLoop, h1] at he
      exact Or.inl he
    by_cases h2 : args.mode = "sde" ∨ args.mode = "ode"
    · simp only [sampleLoop, if_neg h1, if_pos h2, List.mem_cons, List.mem_append,
        List.mem_map] at he
      rcases he with (rfl | rfl | ⟨i, _, hw⟩) | hrest
      · exact Or.inl rfl
      · exact Or.inr (Or.inl rfl)
      · exact Or.inr (Or.inr ⟨_, hw.symm⟩)
      · exact ih (total + n * W) e hrest
    · simp [sampleLoop, h1, h2] at he
      exact Or.inl he

/-- In `"ode"` mode the sampling loop never aborts. -/
lemma sampleLoop_ode_ok (args : Args) (hmode : args.mode = "ode") (rank W n : ℕ) :
    ∀ iters total, (sampleLoop args rank W n iters total).2 = none := by
  intro iters
  induction iters with
  | zero => intro total; rfl
  | succ k ih =>
    intro total
    simp only [sampleLoop, hmode]
    simp only [ne_eq, not_true_eq_false, and_false, if_false, or_true, if_true]
    exact ih (total + n * W)

/-- The full event trace of a successful rank-0 run in `"ode"` mode. -/
lemma mainRun_rank0_success (args : Args) (fsys : FileSystem) (W : ℕ)
    (hcfg : ¬ args.cfg_scale < 1) (hnpz : fsys.npzExists = false)
    (hmode : args.mode = "ode") (hW : 1 ≤ W) :
    mainRun args fsys 0 W =
      (Event.makeDir :: Event.broadcastSkip false :: Event.barrier ::
        ((sampleLoop args 0 W args.pproc_batch_size
          (totalSamples args.num_fid_samples args.pproc_batch_size W / W /
            args.pproc_batch_size) 0).1 ++
        [Event.barrier, Event.buildArchive args.num_fid_samples,
         Event.barrier, Event.destroyGroup]), none) := by
  have hT := totalSamples_mod_world args.num_fid_samples args.pproc_batch_size W
  have hP := perGpu_mod_batch args.num_fid_samples args.pproc_batch_size hW
  unfold samplesNeededThisGpu at hP
  have hloop := sampleLoop_ode_ok args hmode 0 W args.pproc_batch_size
    (totalSamples args.num_fid_samples args.pproc_batch_size W / W /
      args.pproc_batch_size) 0
  simp [mainRun, hcfg, hnpz, hT, hP, hloop]

/-- Claim C3: the archive builder reads back exactly the image files with
indices `0 .. num-1` in strictly increasing index order (position `j` of
the result is file `j` and the result has length `num`), it fails fatally
with the first missing index and emits nothing in that case, and `main`
invokes it on rank 0 with `num = args.num_fid_samples` — the originally
requested count, never anything else. -/
theorem c3_archive_reads_requested_range {α : Type} (fs fsM : ℕ → Option α)
    (num j i m W : ℕ) (l : List α) (args : Args) (fsys : FileSystem)
    (hok : create_npz_from_sample_folder fs num = Except.ok l)
    (hj : j < num)
    (hi : i < num) (hmiss : fsM i = none) (hfirst : ∀ k, k < i → fsM k ≠ none)
    (hcfg : ¬ args.cfg_scale < 1) (hnpz : fsys.npzExists = false)
    (hmode : args.mode = "ode") (hW : 1 ≤ W)
    (hm : Event.buildArchive m ∈ (mainRun args fsys 0 W).1) :
    l.length = num ∧ l[j]? = fs j ∧
    create_npz_from_sample_folder fsM num = Except.error i ∧
    Event.buildArchive args.num_fid_samples ∈ (mainRun args fsys 0 W).1 ∧
    m = args.num_fid_samples := by
  refine ⟨create_npz_ok_length fs num l hok, create_npz_ok_get fs num j l hok hj,
    create_npz_error_at fsM num i hi hmiss hfirst, ?_, ?_⟩
  · rw [mainRun_rank0_success args fsys W hcfg hnpz hmode hW]
    simp
  · rw [mainRun_rank0_success args fsys W hcfg hnpz hmode hW] at hm
    simp only [List.mem_cons, List.mem_append] at hm
    rcases hm with h | h | h | h
    · cases h
    · cases h
    · cases h
    · rcases h with h | h
      · rcases sampleLoop_events_shape args 0 W args.pproc_batch_size _ _ _ h with
          h2 | h2 | ⟨idx, h2⟩ <;> cases h2
      · simp only [List.mem_cons, List.not_mem_nil, or_false] at h
        rcases h with h | h | h | h
        · cases h
        · exact (Event.buildArchive.injEq _ _).mp h
        · cases h
        · cases h

/-- Witness for C3: a folder with images at all indices below 3 (archive is
`[10, 11, 12]`), a folder missing index 1, and a rank-0 run requesting one
sample with batch size 1 on one worker. -/
theorem c3_archive_reads_requested_range_witness :
    (create_npz_from_sample_folder (fun k => if k < 3 then some (10 + k) else none) 3 =
       Except.ok [10, 11, 12] ∧
     (1 : ℕ) < 3 ∧ (1 : ℕ) < 3 ∧
     (fun k => if k = 1 then none else some k) 1 = (none : Option ℕ) ∧
     (∀ k, k < 1 → (fun k => if k = 1 then none else some k) k ≠ none) ∧
     ¬ (⟨0, mkRat 3 2, "ode", false, 1, 1⟩ : Args).cfg_scale < 1 ∧
     (⟨false, false⟩ : FileSystem).npzExists = false ∧
     (⟨0, mkRat 3 2, "ode", false, 1, 1⟩ : Args).mode = "ode" ∧ (1 : ℕ) ≤ 1 ∧
     Event.buildArchive 1 ∈
       (mainRun ⟨0, mkRat 3 2, "ode", false, 1, 1⟩ ⟨false, false⟩ 0 1).1) ∧
    ([10, 11, 12] : List ℕ).length = 3 ∧
    ([10, 11, 12] : List ℕ)[1]? =
      (fun k => if k < 3 then some (10 + k) else none) 1 ∧
    create_npz_from_sample_folder (fun k => if k = 1 then none else some k) 3 =
      Except.error 1 ∧
    Event.buildArchive
        (⟨0, mkRat 3 2, "ode", false, 1, 1⟩ : Args).num_fid_samples ∈
      (mainRun ⟨0, mkRat 3 2, "ode", false, 1, 1⟩ ⟨false, false⟩ 0 1).1 ∧
    1 = (⟨0, mkRat 3 2, "ode", false, 1, 1⟩ : Args).num_fid_samples :=
  ⟨⟨rfl, by decide, by decide, by decide, by decide, by decide, by decide,
    by decide, by decide, by decide⟩,
   c3_archive_reads_requested_range
     (fun k => if k < 3 then some (10 + k) else none)
     (fun k => if k = 1 then none else some k) 3 1 1 1 1 [10, 11, 12]
     ⟨0, mkRat 3 2, "ode", false, 1, 1⟩ ⟨false, false⟩
     rfl (by decide) (by decide) (by decide) (by decide) (by decide)
     (by decide) (by decide) (by decide) (by decide)⟩

/-! ### The global index space -/

/-- In a run that completes, the indices a rank writes are exactly the
planned ones. -/
lemma writtenIndices_sampleLoop (args : Args) (hmode : args.mode = "ode")
    (rank W n : ℕ) :
    ∀ iters total, writtenIndices (sampleLoop args rank W n iters total).1 =
      plannedIndices rank W n iters total := by
  intro iters
  induction iters with
  | zero => intro total; rfl
  | succ k ih =>
    intro total
    rw [sampleLoop, if_neg (by simp [hmode]), if_pos (Or.inr hmode)]
    rw [plannedIndices]
    simp only [writtenIndices, List.filterMap_append, List.filterMap_cons,
      List.filterMap_map]
    rw [← ih (total + n * W)]
    congr 1
    exact congrFun
      (List.filterMap_eq_map (fun i => sampleIndex W rank total i)) (List.range n)

/-- Membership in the planned index list, unrolled. -/
lemma mem_plannedIndices (rank W n : ℕ) :
    ∀ iters total m, m ∈ plannedIndices rank W n iters total ↔
      ∃ t, t < iters ∧ ∃ i, i < n ∧ m = total + t * (n * W) + i * W + rank := by
  intro iters
  induction iters with
  | zero =>
    intro total m
    simp [plannedIndices]
  | succ k ih =>
    intro total m
    simp only [plannedIndices, List.mem_append, List.mem_map, List.mem_range, ih]
    constructor
    · rintro (⟨i, hi, rfl⟩ | ⟨t, ht, i, hi, rfl⟩)
      · refine ⟨0, Nat.succ_pos k, i, hi, ?_⟩
        unfold sampleIndex
        omega
      · refine ⟨t + 1, by omega, i, hi, ?_⟩
        rw [Nat.succ_mul]
        omega
    · rintro ⟨t, ht, i, hi, rfl⟩
      cases t with
      | zero =>
        refine Or.inl ⟨i, hi, ?_⟩
        unfold sampleIndex
        omega
      | succ u =>
        refine Or.inr ⟨u, by omega, i, hi, ?_⟩
        rw [Nat.succ_mul]
        omega

/-- Starting from running total 0, rank `rank < world_size` writes exactly
the indices below `iters * (n * world_size)` that are congruent to `rank`
modulo `world_size`. -/
lemma mem_plannedIndices_zero {rank W n iters : ℕ} (hrank : rank < W)
    (hn : 0 < n) (m : ℕ) :
    m ∈ plannedIndices rank W n iters 0 ↔
      m < iters * (n * W) ∧ m % W = rank := by
  rw [mem_plannedIndices]
  constructor
  · rintro ⟨t, ht, i, hi, rfl⟩
    constructor
    · have h1 : (i + 1) * W ≤ n * W := Nat.mul_le_mul_right W hi
      have h2 : (t + 1) * (n * W) ≤ iters * (n * W) := Nat.mul_le_mul_right _ ht
      rw [Nat.succ_mul] at h1 h2
      omega
    · have h3 : 0 + t * (n * W) + i * W + rank = rank + (t * n + i) * W := by ring
      rw [h3, Nat.add_mul_mod_self_right, Nat.mod_eq_of_lt hrank]
  · rintro ⟨hlt, hmod⟩
    have hW0 : 0 < W := by omega
    refine ⟨m / W / n, ?_, m / W % n, Nat.mod_lt _ hn, ?_⟩
    · rw [Nat.div_lt_iff_lt_mul hn, Nat.div_lt_iff_lt_mul hW0]
      rw [← Nat.mul_assoc] at hlt
      exact hlt
    · have hkey : 0 + m / W / n * (n * W) + m / W % n * W + m % W = m := by
        have h5 : 0 + m / W / n * (n * W) + m / W % n * W + m % W =
            (n * (m / W / n) + m / W % n) * W + m % W := by ring
        rw [h5, Nat.div_add_mod (m / W) n, Nat.mul_comm, Nat.div_add_mod]
      rw [← hmod]
      omega

/-- No rank ever writes the same index twice. -/
lemma plannedIndices_nodup {rank W n : ℕ} (hrank : rank < W) :
    ∀ iters total, (plannedIndices rank W n iters total).Nodup := by
  intro iters
  induction iters with
  | zero => intro total; exact List.nodup_nil
  | succ k ih =>
    intro total
    rw [plannedIndices]
    refine List.Nodup.append ?_ (ih _) ?_
    · refine List.Nodup.map ?_ (List.nodup_range n)
      intro a b hab
      have hab2 : a * W + rank + total = b * W + rank + total := hab
      exact Nat.eq_of_mul_eq_mul_right (show 0 < W by omega)
        (show a * W = b * W by omega)
    · intro a ha hb
      simp only [List.mem_map, List.mem_range] at ha
      obtain ⟨i, hi, rfl⟩ := ha
      rw [mem_plannedIndices] at hb
      obtain ⟨t, ht, i2, hi2, heq⟩ := hb
      unfold sampleIndex at heq
      have h1 : (i + 1) * W ≤ n * W := Nat.mul_le_mul_right W hi
      rw [Nat.succ_mul] at h1
      omega

/-- In a completed run, the indices any rank writes are its planned indices
for the planned iteration count, starting from running total 0. -/
lemma writtenIndices_mainRun (args : Args) (fsys : FileSystem) (rank W : ℕ)
    (hcfg : ¬ args.cfg_scale < 1) (hnpz : fsys.npzExists = false)
    (hmode : args.mode = "ode") (hW : 1 ≤ W) :
    writtenIndices (mainRun args fsys rank W).1 =
      plannedIndices rank W args.pproc_batch_size
        (totalSamples args.num_fid_samples args.pproc_batch_size W / W /
          args.pproc_batch_size) 0 := by
  have hT := totalSamples_mod_world args.num_fid_samples args.pproc_batch_size W
  have hP := perGpu_mod_batch args.num_fid_samples args.pproc_batch_size hW
  unfold samplesNeededThisGpu at hP
  have hloop := sampleLoop_ode_ok args hmode rank W args.pproc_batch_size
    (totalSamples args.num_fid_samples args.pproc_batch_size W / W /
      args.pproc_batch_size) 0
  have hwr := writtenIndices_sampleLoop args hmode rank W args.pproc_batch_size
    (totalSamples args.num_fid_samples args.pproc_batch_size W / W /
      args.pproc_batch_size) 0
  by_cases hr : rank = 0
  · subst hr
    rw [mainRun_rank0_success args fsys W hcfg hnpz hmode hW]
    simpa only [writtenIndices, List.filterMap_cons, List.filterMap_append,
      List.filterMap_nil, List.append_nil] using hwr
  · have htrace : mainRun args fsys rank W =
        (Event.broadcastSkip false :: Event.barrier ::
          ((sampleLoop args rank W args.pproc_batch_size
            (totalSamples args.num_fid_samples args.pproc_batch_size W / W /
              args.pproc_batch_size) 0).1 ++
           [Event.barrier, Event.barrier, Event.destroyGroup]), none) := by
      simp [mainRun, hcfg, hnpz, hT, hP, hloop, hr]
    rw [htrace]
    simpa only [writtenIndices, List.filterMap_cons, List.filterMap_append,
      List.filterMap_nil, List.append_nil] using hwr

/-- Claim C1: over a completed run the per-rank written index sets tile the
whole interval `[0, totalSamples)`: their union over all ranks is exactly
`Finset.range totalSamples`, each rank's index list has no duplicates, and
two distinct ranks write disjoint index sets — the map from (iteration,
batch position, rank) to `sampleIndex` is a bijection onto the interval. -/
theorem c1_sample_index_bijection (args : Args) (fsys : FileSystem)
    (requested n W rank r₁ r₂ : ℕ)
    (hreq : 1 ≤ requested) (hn : 1 ≤ n) (hW : 1 ≤ W)
    (hargsn : args.pproc_batch_size = n) (hargsr : args.num_fid_samples = requested)
    (hcfg : ¬ args.cfg_scale < 1) (hnpz : fsys.npzExists = false)
    (hmode : args.mode = "ode")
    (hrank : rank < W) (hr₁ : r₁ < W) (hr₂ : r₂ < W) (hne : r₁ ≠ r₂) :
    (Finset.range W).biUnion
        (fun r => (writtenIndices (mainRun args fsys r W).1).toFinset) =
      Finset.range (totalSamples requested n W) ∧
    (writtenIndices (mainRun args fsys rank W).1).Nodup ∧
    Disjoint (writtenIndices (mainRun args fsys r₁ W).1).toFinset
      (writtenIndices (mainRun args fsys r₂ W).1).toFinset := by
  subst hargsn hargsr
  have hwrr : ∀ r, writtenIndices (mainRun args fsys r W).1 =
      plannedIndices r W args.pproc_batch_size
        (totalSamples args.num_fid_samples args.pproc_batch_size W / W /
          args.pproc_batch_size) 0 :=
    fun r => writtenIndices_mainRun args fsys r W hcfg hnpz hmode hW
  have hTI : totalSamples args.num_fid_samples args.pproc_batch_size W =
      totalSamples args.num_fid_samples args.pproc_batch_size W / W /
        args.pproc_batch_size * (args.pproc_batch_size * W) := by
    have h := totalSamples_eq_iterations_mul args.num_fid_samples hn hW
    unfold iterations samplesNeededThisGpu at h
    exact h
  refine ⟨?_, ?_, ?_⟩
  · ext m
    simp only [Finset.mem_biUnion, Finset.mem_range, List.mem_toFinset]
    constructor
    · rintro ⟨r, hrW, hm⟩
      rw [hwrr r, mem_plannedIndices_zero hrW hn] at hm
      rw [hTI]
      exact hm.1
    · intro hm
      have hW0 : 0 < W := hW
      refine ⟨m % W, Nat.mod_lt _ hW0, ?_⟩
      rw [hwrr (m % W), mem_plannedIndices_zero (Nat.mod_lt _ hW0) hn]
      rw [hTI] at hm
      exact ⟨hm, rfl⟩
  · rw [hwrr rank]
    exact plannedIndices_nodup hrank _ _
  · rw [Finset.disjoint_left]
    intro a ha hb
    rw [List.mem_toFinset, hwrr r₁, mem_plannedIndices_zero hr₁ hn] at ha
    rw [List.mem_toFinset, hwrr r₂, mem_plannedIndices_zero hr₂ hn] at hb
    exact hne (ha.2.symm.trans hb.2)

/-- Witness for C1: `requested = 3`, `n = 2`, `world_size = 2`
(`totalSamples = 4`); rank 0 writes `{0, 2}`, rank 1 writes `{1, 3}`. -/
theorem c1_sample_index_bijection_witness :
    (1 ≤ 3 ∧ 1 ≤ 2 ∧ 1 ≤ 2 ∧
     (⟨0, mkRat 3 2, "ode", false, 2, 3⟩ : Args).pproc_batch_size = 2 ∧
     (⟨0, mkRat 3 2, "ode", false, 2, 3⟩ : Args).num_fid_samples = 3 ∧
     ¬ (⟨0, mkRat 3 2, "ode", false, 2, 3⟩ : Args).cfg_scale < 1 ∧
     (⟨false, false⟩ : FileSystem).npzExists = false ∧
     (⟨0, mkRat 3 2, "ode", false, 2, 3⟩ : Args).mode = "ode" ∧
     (0 : ℕ) < 2 ∧ (0 : ℕ) < 2 ∧ (1 : ℕ) < 2 ∧ (0 : ℕ) ≠ 1) ∧
    ((Finset.range 2).biUnion
        (fun r => (writtenIndices
          (mainRun ⟨0, mkRat 3 2, "ode", false, 2, 3⟩ ⟨false, false⟩ r 2).1).toFinset) =
      Finset.range (totalSamples 3 2 2) ∧
     (writtenIndices
        (mainRun ⟨0, mkRat 3 2, "ode", false, 2, 3⟩ ⟨false, false⟩ 0 2).1).Nodup ∧
     Disjoint
       (writtenIndices
         (mainRun ⟨0, mkRat 3 2, "ode", false, 2, 3⟩ ⟨false, false⟩ 0 2).1).toFinset
       (writtenIndices
         (mainRun ⟨0, mkRat 3 2, "ode", false, 2, 3⟩ ⟨false, false⟩ 1 2).1).toFinset) :=
  ⟨⟨by decide, by decide, by decide, by decide, by decide, by decide, by decide,
    by decide, by decide, by decide, by decide, by decide⟩,
   c1_sample_index_bijection ⟨0, mkRat 3 2, "ode", false, 2, 3⟩ ⟨false, false⟩
     3 2 2 0 0 1 (by decide) (by decide) (by decide) (by decide) (by decide)
     (by decide) (by decide) (by decide) (by decide) (by decide) (by decide)
     (by decide)⟩

end GenerateSpec
